import Mathlib

set_option maxRecDepth 10000

/-!
Shallow embedding of `fretboard_trainer.py` (GuitarHelper): a guitar
ear-training tool.  Pure numeric code is modelled over `ℚ` (every Python
float value is a rational; Python ints are `ℤ`), except `freq_to_midi`,
whose `log2` forces a model over `ℝ`.  List indices, loops and early
returns are modelled by structural recursion and nested `if` expressions
mirroring the Python control flow line by line.
-/

namespace GuitarHelper

/-! ### Configuration constants (CONFIG section of the source) -/

def SAMPLE_RATE : ℚ := 44100

def AMPLITUDE_THRESHOLD : ℚ := 2 / 100

def MIN_F0 : ℚ := 70

def MAX_F0 : ℚ := 1000

def EVENT_DEBOUNCE_SECONDS : ℚ := 4 / 10

/-- The twelve pitch-class names, laid out as the source's two lines. -/
def NOTE_NAMES : List String :=
  ["C", "C#", "D", "D#", "E", "F"] ++
    ["F#", "G", "G#", "A", "A#", "B"]

/-- `STRING_TUNING_MIDI` as an association list in the dict's insertion
order (Python dicts iterate in insertion order). -/
def STRING_TUNING_MIDI : List (ℤ × ℤ) :=
  [(6, 40), (5, 45), (4, 50), (3, 55), (2, 59), (1, 64)]

def MAX_FRET : ℕ := 12

/-! ### Note helpers -/

/-- `midi_to_note_name`: `NOTE_NAMES[midi % 12]` followed by the octave
`midi // 12 - 1`.  Python `%` and `//` on ints with a positive divisor
coincide with `Int.emod` and `Int.ediv`. -/
def midi_to_note_name (midi_num : ℤ) : String :=
  NOTE_NAMES.getD (midi_num % 12).toNat "" ++ toString (midi_num / 12 - 1)

def pitch_class_name (midi_num : ℤ) : String :=
  NOTE_NAMES.getD (midi_num % 12).toNat ""

/-- `freq_to_midi` over the reals: `None` for an absent or nonpositive
frequency, otherwise `69 + 12 * log2 (frequency / 440)`. -/
noncomputable def freq_to_midi (frequency : Option ℝ) : Option ℝ :=
  match frequency with
  | none => none
  | some f => if f ≤ 0 then none else some (69 + 12 * Real.logb 2 (f / 440))

/-! ### Fretboard model -/

/-- A fretboard entry `(string, fret, midi, name)` as built by the
module-level `FRETBOARD` loop. -/
def FretEntry : Type := ℤ × ℤ × ℤ × String

instance : DecidableEq FretEntry := by
  unfold FretEntry
  infer_instance

def FretEntry.string (e : FretEntry) : ℤ := e.1

def FretEntry.fret (e : FretEntry) : ℤ := e.2.1

def FretEntry.midi (e : FretEntry) : ℤ := e.2.2.1

def FretEntry.name (e : FretEntry) : String := e.2.2.2

/-- The module-level `FRETBOARD` list: for each string of the tuning
table in order, frets `0 .. MAX_FRET`, entry `(s, fret, midi, name)`. -/
def FRETBOARD : List FretEntry :=
  STRING_TUNING_MIDI.flatMap fun so =>
    (List.range (MAX_FRET + 1)).map fun fret =>
      (so.1, (fret : ℤ), so.2 + (fret : ℤ), midi_to_note_name (so.2 + (fret : ℤ)))

/-- Distance used by `nearest_fret_from_freq`: `abs(midi_est - midi)`. -/
def fretDist (midi_est : ℚ) (e : FretEntry) : ℚ := |midi_est - (e.midi : ℚ)|

/-- The scan loop of `nearest_fret_from_freq`, with explicit `best` and
`best_dist` accumulators (initially `None` and `999.0`); an entry
replaces the best exactly when its distance is strictly smaller. -/
def nearestAux (midi_est : ℚ) : List FretEntry → Option FretEntry → ℚ → Option FretEntry
  | [], best, _ => best
  | e :: rest, best, best_dist =>
    let dist := fretDist midi_est e
    if dist < best_dist then nearestAux midi_est rest (some e) dist
    else nearestAux midi_est rest best best_dist

/-- `nearest_fret_from_freq` after the freq-to-MIDI conversion: the scan
over `FRETBOARD` applied to an already-estimated MIDI value. -/
def nearest_fret_scan (midi_est : ℚ) : Option FretEntry :=
  nearestAux midi_est FRETBOARD none 999

/-! ### Pitch detection from one chunk -/

/-- Autocorrelation of `x` with itself at a nonnegative lag:
`np.correlate(x, x, mode="full")` evaluated at index `n - 1 + lag`. -/
def corrAt (x : List ℚ) (lag : ℕ) : ℚ :=
  ((List.range (x.length - lag)).map fun i => x.getD i 0 * x.getD (i + lag) 0).sum

/-- The nonnegative-lag half `corr[len(corr)//2:]` of the full
autocorrelation: lag `0` at index `0` through lag `n - 1`; its length is
the buffer's length. -/
def autocorr_half (x : List ℚ) : List ℚ :=
  (List.range x.length).map (corrAt x)

/-- `np.argmax`: index of the first occurrence of the maximum value
(a later value replaces the best only when strictly greater). -/
def argmaxAux : List ℚ → ℕ → ℕ → ℚ → ℕ
  | [], _, bestIdx, _ => bestIdx
  | v :: rest, idx, bestIdx, bestVal =>
    if bestVal < v then argmaxAux rest (idx + 1) idx v
    else argmaxAux rest (idx + 1) bestIdx bestVal

def np_argmax (l : List ℚ) : ℕ :=
  match l with
  | [] => 0
  | v :: rest => argmaxAux rest 1 0 v

/-- `min_lag = int(SAMPLE_RATE / MAX_F0)`; the quotient is positive, so
Python's truncation toward zero is the floor. -/
def min_lag : ℤ := ⌊SAMPLE_RATE / MAX_F0⌋

/-- Unclamped `max_lag = int(SAMPLE_RATE / MIN_F0)`. -/
def max_lag_raw : ℤ := ⌊SAMPLE_RATE / MIN_F0⌋

/-- The clamp `if max_lag >= len(corr): max_lag = len(corr) - 1` applied
to the correlation-array length `n`. -/
def clamp_max_lag (n : ℕ) : ℤ :=
  if max_lag_raw ≥ (n : ℤ) then (n : ℤ) - 1 else max_lag_raw

/-- `np.mean(audio)`. -/
def chunk_mean (audio : List ℚ) : ℚ := audio.sum / (audio.length : ℚ)

/-- `audio - np.mean(audio)`: the DC-removed buffer. -/
def chunk_centered (audio : List ℚ) : List ℚ :=
  audio.map fun a => a - chunk_mean audio

/-- `float(np.max(np.abs(audio)))` on the DC-removed buffer: the peak
absolute amplitude (the fold starts at `0`, a neutral element for the
maximum of absolute values). -/
def chunk_peak (audio : List ℚ) : ℚ :=
  ((chunk_centered audio).map fun a => |a|).foldl max 0

/-- `detect_pitch_from_chunk`: DC removal, silence gate, normalization,
autocorrelation, lag-window search, lag-to-frequency conversion, band
check.  Each Python early `return None` is a `none` branch. -/
def detect_pitch_from_chunk (audio : List ℚ) : Option ℚ :=
  if audio.length = 0 then none
  else
    let centered := chunk_centered audio
    let peak := chunk_peak audio
    if peak < AMPLITUDE_THRESHOLD then none
    else
      let normed := centered.map fun a => a / peak
      let corr := autocorr_half normed
      let maxLag := clamp_max_lag corr.length
      if min_lag ≥ maxLag then none
      else
        let corr2 := List.replicate min_lag.toNat 0 ++ corr.drop min_lag.toNat
        let slice := (corr2.drop min_lag.toNat).take (maxLag - min_lag).toNat
        let lag : ℤ := (np_argmax slice : ℤ) + min_lag
        if lag ≤ 0 then none
        else
          let freq := SAMPLE_RATE / (lag : ℚ)
          if freq < MIN_F0 ∨ freq > MAX_F0 then none
          else some freq

/-! ### Debouncer -/

/-- A detection label `(string, fret, pitch class)`. -/
def DetectionLabel : Type := ℤ × ℤ × String

instance : DecidableEq DetectionLabel := by
  unfold DetectionLabel
  infer_instance

/-- The globals `last_event_label` / `last_event_time` of the main loop. -/
structure DebounceState where
  lastEventLabel : Option DetectionLabel
  lastEventTime : ℚ

/-- Initial state: `last_event_label = None`, `last_event_time = 0.0`. -/
def initDebounce : DebounceState := ⟨none, 0⟩

/-- One pass of the debounce check: `continue` (suppress, `false`) when
the label equals the last accepted one and strictly less than
`EVENT_DEBOUNCE_SECONDS` elapsed; otherwise accept and update both
globals. -/
def debounce_step (st : DebounceState) (label : DetectionLabel) (now : ℚ) :
    Bool × DebounceState :=
  if st.lastEventLabel = some label ∧ now - st.lastEventTime < EVENT_DEBOUNCE_SECONDS then
    (false, st)
  else
    (true, ⟨some label, now⟩)

/-- Feed a list of `(label, timestamp)` classifications through the
debouncer, counting accepted events. -/
def debounce_run (st : DebounceState) : List (DetectionLabel × ℚ) → ℕ × DebounceState
  | [] => (0, st)
  | (l, t) :: rest =>
    let r := debounce_step st l t
    let rec_r := debounce_run r.2 rest
    ((if r.1 then 1 else 0) + rec_r.1, rec_r.2)

/-! ### Trainer loop decision step -/

/-- The `Target` tuple returned by `random_target_string_and_note`:
`(string, midi, pitch-class name, fret, full note name)`. -/
structure Target where
  string : ℤ
  midi : ℤ
  pc : String
  fret : ℤ
  fullName : String
deriving DecidableEq

inductive Feedback
  | correct
  | rightNoteWrongString
  | differentNote
deriving DecidableEq

/-- The decision step of the inner loop on an accepted detection event:
both match → "correct", `break`, and the outer loop immediately draws a
fresh random target; pitch class only → "right note, wrong string",
target kept; otherwise → "different note", target kept. -/
def trainer_decision (target : Target) (det_string : ℤ) (det_pc : String)
    (fresh : Target) : Feedback × Target :=
  let correct_pc : Bool := det_pc == target.pc
  let correct_string : Bool := det_string == target.string
  if correct_pc && correct_string then (Feedback.correct, fresh)
  else if correct_pc then (Feedback.rightNoteWrongString, target)
  else (Feedback.differentNote, target)

/-! ### Random target selection -/

/-- `random.choice` with an injected random index: picks the element at
`i mod length` (`none` only on an empty list, where `random.choice`
raises). -/
def random_choice {α : Type} (l : List α) (i : ℕ) : Option α :=
  l[i % l.length]?

/-- `list(STRING_TUNING_MIDI.keys())`. -/
def STRING_KEYS : List ℤ := STRING_TUNING_MIDI.map Prod.fst

/-- `random_target_string_and_note` with the two `random.choice` calls
injected as indices `i` (string choice) and `j` (candidate choice). -/
def random_target_string_and_note (i j : ℕ) : Option Target :=
  match random_choice STRING_KEYS i with
  | none => none
  | some s =>
    let candidates := FRETBOARD.filter fun e => e.string == s
    match random_choice candidates j with
    | none => none
    | some e => some ⟨s, e.midi, pitch_class_name e.midi, e.fret, e.name⟩

/-! ## Characterization of the nearest-fret scan

The loop keeps a strict minimum, so the final `best` is either the
untouched initial accumulator (when no entry beats the initial
`best_dist`) or the first entry of the list attaining the overall
minimum distance. -/

lemma nearestAux_spec (m : ℚ) (L : List FretEntry) :
    ∀ (best : Option FretEntry) (d : ℚ),
      (nearestAux m L best d = best ∧ ∀ x ∈ L, d ≤ fretDist m x) ∨
      (∃ l1 e l2, L = l1 ++ e :: l2 ∧ nearestAux m L best d = some e ∧
        fretDist m e < d ∧ (∀ x ∈ l1, fretDist m e < fretDist m x) ∧
        ∀ x ∈ l2, fretDist m e ≤ fretDist m x) := by
  induction L with
  | nil =>
    intro best d
    left
    exact ⟨rfl, by simp⟩
  | cons a L ih =>
    intro best d
    by_cases h : fretDist m a < d
    · have hstep : nearestAux m (a :: L) best d = nearestAux m L (some a) (fretDist m a) := by
        simp only [nearestAux, if_pos h]
      rcases ih (some a) (fretDist m a) with ⟨hres, hall⟩ | ⟨l1, e, l2, hL, hres, hlt, h1, h2⟩
      · right
        exact ⟨[], a, L, rfl, by rw [hstep, hres], h, by simp, hall⟩
      · right
        refine ⟨a :: l1, e, l2, by rw [hL]; rfl, by rw [hstep, hres], lt_trans hlt h, ?_, h2⟩
        intro x hx
        rcases List.mem_cons.mp hx with rfl | hx
        · exact hlt
        · exact h1 x hx
    · have hstep : nearestAux m (a :: L) best d = nearestAux m L best d := by
        simp only [nearestAux, if_neg h]
      rcases ih best d with ⟨hres, hall⟩ | ⟨l1, e, l2, hL, hres, hlt, h1, h2⟩
      · left
        refine ⟨by rw [hstep, hres], ?_⟩
        intro x hx
        rcases List.mem_cons.mp hx with rfl | hx
        · exact not_lt.mp h
        · exact hall x hx
      · right
        refine ⟨a :: l1, e, l2, by rw [hL]; rfl, by rw [hstep, hres], hlt, ?_, h2⟩
        intro x hx
        rcases List.mem_cons.mp hx with rfl | hx
        · exact lt_of_lt_of_le hlt (not_lt.mp h)
        · exact h1 x hx

/-! ## Claims -/

/-- C1 (counterexample): the claim says the scan fails only on an empty
fretboard, but with the fixed non-empty `FRETBOARD` the scan still
returns `None` at estimated MIDI `2000`, because the initial
`best_dist = 999.0` sentinel is below every entry's distance there. -/
theorem C1_counterexample : FRETBOARD ≠ [] ∧ nearest_fret_scan 2000 = none := by
  constructor
  · with_unfolding_all decide
  · with_unfolding_all decide

/-- C1 (amended): the scan returns an entry exactly when some fretboard
entry lies at distance strictly less than the `999.0` sentinel from the
estimated MIDI value; in particular it can return `None` on the fixed
non-empty fretboard. -/
theorem C1_scan_some_iff (m : ℚ) :
    (∃ e, nearest_fret_scan m = some e) ↔ ∃ e ∈ FRETBOARD, fretDist m e < 999 := by
  constructor
  · rintro ⟨e, he⟩
    rw [nearest_fret_scan] at he
    rcases nearestAux_spec m FRETBOARD none 999 with ⟨hres, -⟩ | ⟨l1, e2, l2, hL, hres, hlt, -, -⟩
    · rw [hres] at he
      cases he
    · rw [hres] at he
      refine ⟨e2, ?_, hlt⟩
      rw [hL]
      simp
  · rintro ⟨e0, hmem, hd⟩
    rcases nearestAux_spec m FRETBOARD none 999 with ⟨-, hall⟩ | ⟨l1, e2, l2, -, hres, -, -, -⟩
    · exact absurd (hall e0 hmem) (not_le.mpr hd)
    · exact ⟨e2, hres⟩

/-- C1 witness instance: at estimated MIDI `45` the scan does return an
entry. -/
theorem C1_witness : ∃ e, nearest_fret_scan 45 = some e :=
  (C1_scan_some_iff 45).mpr
    ⟨(6, 5, 45, "A2"), by with_unfolding_all decide, by with_unfolding_all decide⟩

/-- C2 (confirmed): whenever the scan returns an entry, that entry is in
the fretboard, minimizes the distance `|estimatedMidi - midiNote|` over
all fretboard entries, and is the first entry of the generation order
attaining the minimum (every earlier entry is strictly farther). -/
theorem C2_scan_minimal (m : ℚ) (e : FretEntry) (h : nearest_fret_scan m = some e) :
    e ∈ FRETBOARD ∧ (∀ x ∈ FRETBOARD, fretDist m e ≤ fretDist m x) ∧
    ∃ l1 l2, FRETBOARD = l1 ++ e :: l2 ∧ ∀ x ∈ l1, fretDist m e < fretDist m x := by
  rw [nearest_fret_scan] at h
  rcases nearestAux_spec m FRETBOARD none 999 with ⟨hres, -⟩ | ⟨l1, e2, l2, hL, hres, hlt, h1, h2⟩
  · rw [hres] at h
    cases h
  · rw [hres] at h
    obtain rfl : e2 = e := Option.some.inj h
    refine ⟨by rw [hL]; simp, ?_, l1, l2, hL, h1⟩
    intro x hx
    rw [hL] at hx
    rcases List.mem_append.mp hx with hx | hx
    · exact le_of_lt (h1 x hx)
    · rcases List.mem_cons.mp hx with rfl | hx
      · exact le_refl _
      · exact h2 x hx

/-- C2 witness instance: estimated MIDI `44.5` sits exactly between MIDI
`44` (string 6, fret 4) and MIDI `45` (string 6, fret 5); the scan
resolves the tie to the entry generated first, and that entry is a
minimizer over the whole fretboard. -/
theorem C2_witness :
    nearest_fret_scan (89 / 2) = some (6, 4, 44, "G#2") ∧
    ((6, 4, 44, "G#2") : FretEntry) ∈ FRETBOARD ∧
    ∀ x ∈ FRETBOARD, fretDist (89 / 2) (6, 4, 44, "G#2") ≤ fretDist (89 / 2) x := by
  have h : nearest_fret_scan (89 / 2) = some (6, 4, 44, "G#2") := by
    with_unfolding_all decide
  have hmin := C2_scan_minimal (89 / 2) (6, 4, 44, "G#2") h
  exact ⟨h, hmin.1, hmin.2.1⟩

/-- C3 (confirmed): a label is suppressed (result `false`, state kept)
exactly when it equals the last accepted label and strictly less than
`EVENT_DEBOUNCE_SECONDS` elapsed since it was accepted; otherwise it is
accepted and both globals are updated.  Consequently the same label fed
twice within the window from the start state yields exactly one accepted
event, and fed once more after the window elapses yields a second. -/
theorem C3_debounce :
    (∀ (st : DebounceState) (l : DetectionLabel) (now : ℚ),
      debounce_step st l now = (false, st) ↔
        st.lastEventLabel = some l ∧ now - st.lastEventTime < EVENT_DEBOUNCE_SECONDS) ∧
    (∀ (st : DebounceState) (l : DetectionLabel) (now : ℚ),
      ¬(st.lastEventLabel = some l ∧ now - st.lastEventTime < EVENT_DEBOUNCE_SECONDS) →
        debounce_step st l now = (true, ⟨some l, now⟩)) ∧
    (∀ (l : DetectionLabel) (t0 t1 : ℚ), t1 - t0 < EVENT_DEBOUNCE_SECONDS →
      (debounce_run initDebounce [(l, t0), (l, t1)]).1 = 1) ∧
    (∀ (l : DetectionLabel) (t0 t1 t2 : ℚ), t1 - t0 < EVENT_DEBOUNCE_SECONDS →
      EVENT_DEBOUNCE_SECONDS ≤ t2 - t0 →
      (debounce_run initDebounce [(l, t0), (l, t1), (l, t2)]).1 = 2) := by
  have hstep : ∀ (st : DebounceState) (l : DetectionLabel) (now : ℚ),
      debounce_step st l now = (false, st) ↔
        st.lastEventLabel = some l ∧ now - st.lastEventTime < EVENT_DEBOUNCE_SECONDS := by
    intro st l now
    unfold debounce_step
    by_cases h : st.lastEventLabel = some l ∧ now - st.lastEventTime < EVENT_DEBOUNCE_SECONDS
    · simp [h]
    · simp [h]
  have haccept : ∀ (st : DebounceState) (l : DetectionLabel) (now : ℚ),
      ¬(st.lastEventLabel = some l ∧ now - st.lastEventTime < EVENT_DEBOUNCE_SECONDS) →
        debounce_step st l now = (true, ⟨some l, now⟩) := by
    intro st l now h
    unfold debounce_step
    simp [h]
  have hfirst : ∀ (l : DetectionLabel) (t0 : ℚ),
      debounce_step initDebounce l t0 = (true, ⟨some l, t0⟩) := by
    intro l t0
    exact haccept _ _ _ (by simp [initDebounce])
  have hsupp : ∀ (l : DetectionLabel) (t0 t1 : ℚ), t1 - t0 < EVENT_DEBOUNCE_SECONDS →
      debounce_step ⟨some l, t0⟩ l t1 = (false, ⟨some l, t0⟩) := by
    intro l t0 t1 h
    exact (hstep _ _ _).mpr ⟨rfl, h⟩
  refine ⟨hstep, haccept, ?_, ?_⟩
  · intro l t0 t1 h1
    simp [debounce_run, hfirst l t0, hsupp l t0 t1 h1]
  · intro l t0 t1 t2 h1 h2
    have hthird : debounce_step ⟨some l, t0⟩ l t2 = (true, ⟨some l, t2⟩) :=
      haccept _ _ _ (by rintro ⟨-, hlt⟩; exact absurd h2 (not_le.mpr hlt))
    simp [debounce_run, hfirst l t0, hsupp l t0 t1 h1, hthird]

/-- C3 witness instance: label `(6, 0, "E")` fed at times `1`, `1.2`
and `1.5` is accepted, suppressed (`0.2 < 0.4`), and accepted again
(`0.5 ≥ 0.4`): two accepted events in total. -/
theorem C3_witness :
    (1 : ℚ) + 1 / 5 - 1 < EVENT_DEBOUNCE_SECONDS ∧
    EVENT_DEBOUNCE_SECONDS ≤ (1 : ℚ) + 1 / 2 - 1 ∧
    (debounce_run initDebounce
      [((6, 0, "E"), 1), ((6, 0, "E"), 1 + 1 / 5), ((6, 0, "E"), 1 + 1 / 2)]).1 = 2 := by
  refine ⟨?_, ?_, ?_⟩
  · unfold EVENT_DEBOUNCE_SECONDS
    norm_num
  · unfold EVENT_DEBOUNCE_SECONDS
    norm_num
  · exact C3_debounce.2.2.2 (6, 0, "E") 1 (1 + 1 / 5) (1 + 1 / 2)
      (by unfold EVENT_DEBOUNCE_SECONDS; norm_num)
      (by unfold EVENT_DEBOUNCE_SECONDS; norm_num)

/-- C4 (confirmed): on an accepted detection event, the decision step
replaces the target with the freshly drawn one exactly in the
both-match case (feedback "correct"); in the pitch-class-only case and
the no-match case the target is kept and the loop keeps awaiting
input. -/
theorem C4_decision (t : Target) (ds : ℤ) (dpc : String) (fresh : Target) :
    (dpc = t.pc ∧ ds = t.string →
      trainer_decision t ds dpc fresh = (Feedback.correct, fresh)) ∧
    (dpc = t.pc ∧ ds ≠ t.string →
      trainer_decision t ds dpc fresh = (Feedback.rightNoteWrongString, t)) ∧
    (dpc ≠ t.pc →
      trainer_decision t ds dpc fresh = (Feedback.differentNote, t)) := by
  refine ⟨?_, ?_, ?_⟩
  · rintro ⟨hpc, hs⟩
    simp [trainer_decision, hpc, hs]
  · rintro ⟨hpc, hs⟩
    simp [trainer_decision, hpc, hs]
  · intro hpc
    simp [trainer_decision, hpc]

/-- C4 witness instance: the end-to-end scenario of the spec — target
string 6, pitch class "E"; detected string 5, pitch class "E" — takes
the pitch-class-only branch and keeps the target unchanged. -/
theorem C4_witness :
    trainer_decision ⟨6, 40, "E", 0, "E2"⟩ 5 "E" ⟨5, 57, "A", 12, "A3"⟩ =
      (Feedback.rightNoteWrongString, ⟨6, 40, "E", 0, "E2"⟩) :=
  (C4_decision ⟨6, 40, "E", 0, "E2"⟩ 5 "E" ⟨5, 57, "A", 12, "A3"⟩).2.1
    ⟨rfl, by decide⟩

/-- C5 (confirmed): the fretboard has exactly `6 * (MAX_FRET + 1) = 78`
entries, and for every string of the tuning table and every fret in
`[0, MAX_FRET]` there is exactly one entry with that string and fret,
and exactly one such entry carrying `midiNote = tuning[string] + fret`. -/
theorem C5_fretboard :
    FRETBOARD.length = 6 * (MAX_FRET + 1) ∧
    ∀ p ∈ STRING_TUNING_MIDI, ∀ f : ℕ, f ≤ MAX_FRET →
      (FRETBOARD.countP fun e => e.string == p.1 && e.fret == (f : ℤ)) = 1 ∧
      (FRETBOARD.countP fun e =>
        e.string == p.1 && e.fret == (f : ℤ) && e.midi == p.2 + (f : ℤ)) = 1 := by
  constructor
  · with_unfolding_all decide
  · with_unfolding_all decide

/-- C5 witness instance: string 6 (open MIDI 40) at the last fret has
exactly one entry, with MIDI `40 + 12 = 52`. -/
theorem C5_witness :
    (FRETBOARD.countP fun e => e.string == (6 : ℤ) && e.fret == (12 : ℤ)) = 1 ∧
    (FRETBOARD.countP fun e =>
      e.string == (6 : ℤ) && e.fret == (12 : ℤ) && e.midi == (40 : ℤ) + (12 : ℤ)) = 1 :=
  C5_fretboard.2 (6, 40) (by decide) 12 (by decide)

/-- C7 (confirmed): `freq_to_midi` returns `none` exactly on an absent
or nonpositive frequency; on every positive frequency it returns
`69 + 12 * log2 (f / 440)`; in particular it maps `440` to exactly `69`
and maps `0` and `-5` to `none`. -/
theorem C7_freq_to_midi :
    freq_to_midi none = none ∧
    (∀ f : ℝ, freq_to_midi (some f) = none ↔ f ≤ 0) ∧
    (∀ f : ℝ, 0 < f →
      freq_to_midi (some f) = some (69 + 12 * Real.logb 2 (f / 440))) ∧
    freq_to_midi (some 440) = some 69 ∧
    freq_to_midi (some 0) = none ∧
    freq_to_midi (some (-5)) = none := by
  have hpos : ∀ f : ℝ, 0 < f →
      freq_to_midi (some f) = some (69 + 12 * Real.logb 2 (f / 440)) := by
    intro f hf
    simp [freq_to_midi, not_le.mpr hf]
  refine ⟨rfl, ?_, hpos, ?_, ?_, ?_⟩
  · intro f
    constructor
    · intro h
      by_contra hle
      rw [hpos f (not_le.mp hle)] at h
      cases h
    · intro h
      simp [freq_to_midi, h]
  · rw [hpos 440 (by norm_num)]
    norm_num [Real.logb_one]
  · simp [freq_to_midi]
  · norm_num [freq_to_midi]

/-- C7 witness instance: the positive-frequency branch applied at a
concrete frequency. -/
theorem C7_witness :
    (0 : ℝ) < 880 ∧
    freq_to_midi (some 880) = some (69 + 12 * Real.logb 2 (880 / 440)) :=
  ⟨by norm_num, C7_freq_to_midi.2.2.1 880 (by norm_num)⟩

/-! ## Path lemmas for the pitch detector -/

lemma chunk_centered_length (audio : List ℚ) :
    (chunk_centered audio).length = audio.length := by
  simp [chunk_centered]

lemma autocorr_half_length (x : List ℚ) : (autocorr_half x).length = x.length := by
  simp [autocorr_half]

/-- The correlation array built inside `detect_pitch_from_chunk` has the
buffer's length. -/
lemma detect_corr_length (audio : List ℚ) :
    (autocorr_half ((chunk_centered audio).map fun a => a / chunk_peak audio)).length
      = audio.length := by
  simp [autocorr_half, chunk_centered]

/-- Any buffer whose peak amplitude after DC removal is below the
threshold is rejected by the silence gate. -/
lemma detect_none_of_peak (audio : List ℚ)
    (h : chunk_peak audio < AMPLITUDE_THRESHOLD) :
    detect_pitch_from_chunk audio = none := by
  simp only [detect_pitch_from_chunk]
  split_ifs <;> rfl

/-- Any buffer for which the clamped lag window is degenerate is
rejected at the `min_lag >= max_lag` guard (or earlier). -/
lemma detect_none_of_lag (audio : List ℚ)
    (h : min_lag ≥ clamp_max_lag audio.length) :
    detect_pitch_from_chunk audio = none := by
  simp only [detect_pitch_from_chunk]
  rw [detect_corr_length audio]
  split_ifs <;> rfl

lemma foldl_max_zero_replicate (n : ℕ) :
    ((List.replicate n (0 : ℚ)).foldl max 0) = 0 := by
  induction n with
  | zero => rfl
  | succ k ih => simpa [List.replicate_succ] using ih

lemma chunk_peak_replicate_zero (n : ℕ) :
    chunk_peak (List.replicate n (0 : ℚ)) = 0 := by
  have hmean : chunk_mean (List.replicate n (0 : ℚ)) = 0 := by
    simp [chunk_mean]
  have hcent : chunk_centered (List.replicate n (0 : ℚ)) = List.replicate n 0 := by
    simp [chunk_centered, hmean]
  rw [chunk_peak, hcent]
  simpa using foldl_max_zero_replicate n

/-- C8 (confirmed): the detector returns `none` on the empty buffer, on
every buffer whose peak absolute amplitude after DC removal is below the
amplitude threshold, and in particular on every all-zero buffer. -/
theorem C8_silence :
    detect_pitch_from_chunk [] = none ∧
    (∀ audio : List ℚ, chunk_peak audio < AMPLITUDE_THRESHOLD →
      detect_pitch_from_chunk audio = none) ∧
    ∀ n : ℕ, detect_pitch_from_chunk (List.replicate n 0) = none := by
  refine ⟨rfl, detect_none_of_peak, ?_⟩
  intro n
  refine detect_none_of_peak _ ?_
  rw [chunk_peak_replicate_zero]
  unfold AMPLITUDE_THRESHOLD
  norm_num

/-- C8 witness instance: a constant buffer centers to zero, so its peak
is below the threshold and the detector rejects it. -/
theorem C8_witness :
    chunk_peak [1, 1] < AMPLITUDE_THRESHOLD ∧
    detect_pitch_from_chunk [1, 1] = none := by
  have h : chunk_peak [1, 1] < AMPLITUDE_THRESHOLD := by with_unfolding_all decide
  exact ⟨h, C8_silence.2.1 [1, 1] h⟩

/-- C9 (confirmed): with the default constants, every buffer shorter
than 46 samples is rejected regardless of content: the correlation half
has the buffer's length `n`, the clamped `max_lag` is `n - 1 ≤ 44`, and
`min_lag = 44` then fails the strict window check. -/
theorem C9_short_buffer (audio : List ℚ) (h : audio.length < 46) :
    detect_pitch_from_chunk audio = none := by
  apply detect_none_of_lag
  have hmin : min_lag = 44 := by with_unfolding_all decide
  have hraw : max_lag_raw = 630 := by with_unfolding_all decide
  unfold clamp_max_lag
  rw [hmin, hraw]
  split_ifs with hge <;> omega

/-- C9 witness instance: a loud 10-sample buffer (which passes the
silence gate) is still rejected. -/
theorem C9_witness :
    ([1, -1, 1, -1, 1, -1, 1, -1, 1, -1] : List ℚ).length < 46 ∧
    detect_pitch_from_chunk [1, -1, 1, -1, 1, -1, 1, -1, 1, -1] = none :=
  ⟨by decide, C9_short_buffer _ (by decide)⟩

/-- C6 (confirmed): the lag window of `detect_pitch_from_chunk` is
`min_lag = ⌊sampleRate / maxF0⌋ = 44` and `max_lag = ⌊sampleRate /
minF0⌋ = 630` clamped (by the source's `>=` guard, which covers the
equality case) so that it never exceeds the correlation array's last
valid index `n - 1`; the function returns `none` whenever `min_lag ≥
max_lag` after clamping; and every index in the searched window
`[0, max_lag)` is a valid index of the correlation array. -/
theorem C6_lag_window :
    min_lag = ⌊SAMPLE_RATE / MAX_F0⌋ ∧ min_lag = 44 ∧
    max_lag_raw = ⌊SAMPLE_RATE / MIN_F0⌋ ∧ max_lag_raw = 630 ∧
    (∀ n : ℕ, clamp_max_lag n ≤ (n : ℤ) - 1) ∧
    (∀ audio : List ℚ, min_lag ≥ clamp_max_lag audio.length →
      detect_pitch_from_chunk audio = none) ∧
    ∀ (n : ℕ) (i : ℤ), 0 ≤ i → i < clamp_max_lag n → i < (n : ℤ) := by
  have hraw : max_lag_raw = 630 := by with_unfolding_all decide
  have hclamp : ∀ n : ℕ, clamp_max_lag n ≤ (n : ℤ) - 1 := by
    intro n
    unfold clamp_max_lag
    rw [hraw]
    split_ifs with hge <;> omega
  refine ⟨rfl, by with_unfolding_all decide, rfl, hraw, hclamp, detect_none_of_lag, ?_⟩
  intro n i h0 hlt
  have := hclamp n
  omega

/-- C6 witness instance: a 2-sample buffer has a degenerate window and
is rejected. -/
theorem C6_witness :
    min_lag ≥ clamp_max_lag ([1, -1] : List ℚ).length ∧
    detect_pitch_from_chunk [1, -1] = none := by
  have h : min_lag ≥ clamp_max_lag ([1, -1] : List ℚ).length := by
    with_unfolding_all decide
  exact ⟨h, C6_lag_window.2.2.2.2.2.1 [1, -1] h⟩

/-! ## Consistency of random target selection -/

/-- Every fretboard entry is internally consistent with the tuning
table: its open-string MIDI is `midi - fret`, its fret is within
`[0, MAX_FRET]`, and its stored name is the note name of its MIDI. -/
lemma fretboard_entry_consistent :
    ∀ e ∈ FRETBOARD,
      STRING_TUNING_MIDI.lookup e.string = some (e.midi - e.fret) ∧
      0 ≤ e.fret ∧ e.fret ≤ (MAX_FRET : ℤ) ∧
      e.name = midi_to_note_name e.midi := by
  with_unfolding_all decide

/-- Each string of the tuning table owns `MAX_FRET + 1 = 13` fretboard
entries. -/
lemma candidates_length :
    ∀ s ∈ STRING_KEYS, (FRETBOARD.filter fun e => e.string == s).length = 13 := by
  with_unfolding_all decide

/-- C10 (confirmed): for every outcome of the two injected random
choices, `random_target_string_and_note` returns a target whose string
is a key of the tuning table, whose fret lies in `[0, MAX_FRET]`, whose
MIDI equals the open-string MIDI plus the fret, whose pitch-class name
is `NOTE_NAMES[midi mod 12]`, and whose full note name is
`midi_to_note_name midi`. -/
theorem C10_target_consistent (i j : ℕ) :
    ∃ t : Target, random_target_string_and_note i j = some t ∧
      t.string ∈ STRING_KEYS ∧
      0 ≤ t.fret ∧ t.fret ≤ (MAX_FRET : ℤ) ∧
      STRING_TUNING_MIDI.lookup t.string = some (t.midi - t.fret) ∧
      t.pc = NOTE_NAMES.getD (t.midi % 12).toNat "" ∧
      t.fullName = midi_to_note_name t.midi := by
  have hi : i % STRING_KEYS.length < STRING_KEYS.length :=
    Nat.mod_lt _ (by norm_num [STRING_KEYS, STRING_TUNING_MIDI])
  obtain ⟨s, hs⟩ : ∃ s, STRING_KEYS[i % STRING_KEYS.length]? = some s :=
    ⟨_, List.getElem?_eq_getElem hi⟩
  have hs_mem : s ∈ STRING_KEYS := List.getElem?_mem hs
  have hclen : (FRETBOARD.filter fun e => e.string == s).length = 13 :=
    candidates_length s hs_mem
  have hj : j % (FRETBOARD.filter fun e => e.string == s).length <
      (FRETBOARD.filter fun e => e.string == s).length := by
    rw [hclen]
    exact Nat.mod_lt _ (by norm_num)
  obtain ⟨e, he⟩ : ∃ e,
      (FRETBOARD.filter fun e => e.string == s)[j %
        (FRETBOARD.filter fun e => e.string == s).length]? = some e :=
    ⟨_, List.getElem?_eq_getElem hj⟩
  have he_mem : e ∈ FRETBOARD.filter fun e => e.string == s := List.getElem?_mem he
  have he_fb : e ∈ FRETBOARD := (List.mem_filter.mp he_mem).1
  have he_s : e.string = s := by simpa using (List.mem_filter.mp he_mem).2
  have hcons := fretboard_entry_consistent e he_fb
  refine ⟨⟨s, e.midi, pitch_class_name e.midi, e.fret, e.name⟩, ?_, hs_mem,
    hcons.2.1, hcons.2.2.1, ?_, rfl, hcons.2.2.2⟩
  · simp only [random_target_string_and_note, random_choice, hs, he]
  · rw [← he_s]
    exact hcons.1

/-- C10 witness instance: the choice pair `(0, 0)` yields a target. -/
theorem C10_witness : ∃ t : Target, random_target_string_and_note 0 0 = some t := by
  obtain ⟨t, ht, -⟩ := C10_target_consistent 0 0
  exact ⟨t, ht⟩

end GuitarHelper
